import Mathlib

/-!
Verification of the gkeep-to-obsidian conversion pipeline (src/convert.py).

The development shallowly embeds the pure core of `convert.py`:
Python strings become Lean `String`s (sequences of code points, so `len`,
slicing and `in` agree), `pathlib.PurePosixPath` becomes `PyPath`
(an absolute flag plus a list of segments, with `'.'` and empty segments
dropped as pathlib does), JSON documents become the `Json` inductive,
and fallible Python code returns `Except PyErr`.

Python library primitives used by convert.py (`str.replace`, `str.join`,
`str.split`-like line handling, dict operations, `datetime.strftime`)
are modelled by executable Lean functions defined below.
-/

set_option autoImplicit false

namespace GKeep

/-! ### Python string primitives -/

/-- Split a list of characters at every occurrence of `sep`
(model of splitting a Python string on a one-character separator;
like Python's `str.split`, it produces `n+1` groups for `n` separators,
including empty groups). -/
def splitOnChar (sep : Char) : List Char → List (List Char)
  | [] => [[]]
  | c :: rest =>
    if c = sep then
      [] :: splitOnChar sep rest
    else
      match splitOnChar sep rest with
      | [] => [[c]]
      | g :: gs => (c :: g) :: gs

/-- Join groups of characters with a separator
(model of Python's `sep.join(...)`). -/
def joinChars (sep : List Char) : List (List Char) → List Char
  | [] => []
  | [x] => x
  | x :: xs => x ++ sep ++ joinChars sep xs

/-- Python's `sep.join(strings)`. -/
def pyJoin (sep : String) (xs : List String) : String :=
  String.mk (joinChars sep.data (xs.map String.data))

/-- Replace every (non-overlapping, leftmost-first) occurrence of `needle`
by `repl`, scanning left to right.  `fuel` bounds the recursion and is
always instantiated with the length of the scanned list, which suffices:
each step consumes at least one character of the haystack. -/
def replaceFromFuel (needle repl : List Char) : Nat → List Char → List Char
  | _, [] => []
  | 0, hay => hay
  | fuel + 1, c :: rest =>
    if needle.isPrefixOf (c :: rest) ∧ needle ≠ [] then
      repl ++ replaceFromFuel needle repl fuel (List.drop (needle.length - 1) rest)
    else
      c :: replaceFromFuel needle repl fuel rest

/-- Python's `hay.replace(needle, repl)` for a non-empty `needle`
(convert.py never calls `replace` with an empty pattern). -/
def pyReplace (hay needle repl : String) : String :=
  String.mk (replaceFromFuel needle.data repl.data hay.data.length hay.data)

/-- Find the first occurrence of `needle` in a list and split around it:
`some (before, after)` where the list is `before ++ needle ++ after`. -/
def splitAtSub (needle : List Char) : List Char → Option (List Char × List Char)
  | [] => none
  | c :: rest =>
    if needle.isPrefixOf (c :: rest) then
      some ([], List.drop needle.length (c :: rest))
    else
      (splitAtSub needle rest).map (fun p => (c :: p.1, p.2))

/-- Python's `needle in hay` substring test for strings. -/
def pySubstr (needle hay : List Char) : Bool :=
  if needle = [] then true else (splitAtSub needle hay).isSome

/-! ### pathlib.PurePosixPath model -/

/-- A POSIX path as pathlib represents it: an absolute-path flag plus the
list of `parts`.  pathlib drops empty segments and `'.'` segments but keeps
`'..'` segments. -/
structure PyPath where
  absolute : Bool
  segs : List String
deriving DecidableEq

/-- `pathlib.PurePosixPath(s)`: split on `'/'`, drop empty and `'.'`
segments, record whether the string started with `'/'`. -/
def mkPath (s : String) : PyPath :=
  let isAbs := s.data.head? == some '/'
  let groups := (splitOnChar '/' s.data).filter (fun g => !(g == []) && !(g == ['.']))
  ⟨isAbs, groups.map (fun g => String.mk g)⟩

/-- `p / q` on pathlib paths: an absolute right operand replaces the left
operand entirely, otherwise the segments are concatenated. -/
def pathJoin (p q : PyPath) : PyPath :=
  if q.absolute then q else ⟨p.absolute, p.segs ++ q.segs⟩

/-- `str(p)` for a pathlib path. -/
def pathStr (p : PyPath) : String :=
  if p.segs.isEmpty then (if p.absolute then "/" else ".")
  else (if p.absolute then "/" else "") ++ pyJoin "/" p.segs

/-- `p.parent` for a pathlib path (drops the final segment). -/
def pathParent (p : PyPath) : PyPath :=
  ⟨p.absolute, p.segs.dropLast⟩

/-! ### JSON values and Python dynamic operations

`json.loads` produces untyped Python values; `parse_note` and the
attachment helpers operate on them dynamically and can raise `TypeError`
or `KeyError`.  `Json` models the parse result (object key order is the
document order; `json.loads` keeps the last of duplicate keys, and the
documents used in the theorems below have distinct keys).  JSON numbers
are modelled as integers; no claim depends on fractional numbers. -/

inductive Json where
  | null : Json
  | bool : Bool → Json
  | num : Int → Json
  | str : String → Json
  | arr : List Json → Json
  | obj : List (String × Json) → Json

/-- Python exceptions raised by the modelled code. -/
inductive PyErr where
  | typeError : PyErr
  | keyError : PyErr
deriving DecidableEq

/-- Python `==` between a JSON value and a string (`str.__eq__`:
comparing a string with a non-string is `False`, never an error). -/
def jsonEqStr (j : Json) (s : String) : Bool :=
  match j with
  | .str t => t == s
  | _ => false

/-- Python's `key in d` for an untyped value `d`:
key membership for dicts, substring test for strings, element membership
for lists, and `TypeError` for values that are not containers. -/
def pyContains (d : Json) (key : String) : Except PyErr Bool :=
  match d with
  | .obj kvs => .ok (kvs.any (fun kv => kv.1 == key))
  | .str s => .ok (pySubstr key.data s.data)
  | .arr xs => .ok (xs.any (fun x => jsonEqStr x key))
  | _ => .error .typeError

/-- Python's `d[key]` for a string key: dict lookup (`KeyError` when
missing); strings and lists require integer indices (`TypeError`);
other values are not subscriptable (`TypeError`). -/
def pyGetItemStr (d : Json) (key : String) : Except PyErr Json :=
  match d with
  | .obj kvs =>
    match kvs.find? (fun kv => kv.1 == key) with
    | some kv => .ok kv.2
    | none => .error .keyError
  | _ => .error .typeError

/-- `d[key] = v` on an ordered dict: overwrite in place when the key
exists (Python dicts keep the original insertion position), otherwise
append at the end. -/
def setAssoc (kvs : List (String × Json)) (key : String) (v : Json) :
    List (String × Json) :=
  if kvs.any (fun kv => kv.1 == key) then
    kvs.map (fun kv => if kv.1 == key then (key, v) else kv)
  else
    kvs ++ [(key, v)]

/-- Python's `d[key] = v` for an untyped value `d`. -/
def pySetItemStr (d : Json) (key : String) (v : Json) : Except PyErr Json :=
  match d with
  | .obj kvs => .ok (.obj (setAssoc kvs key v))
  | _ => .error .typeError

/-- Python's `del d[key]` for an untyped value `d`. -/
def pyDelItemStr (d : Json) (key : String) : Except PyErr Json :=
  match d with
  | .obj kvs => .ok (.obj (kvs.filter (fun kv => !(kv.1 == key))))
  | _ => .error .typeError

/-- Python iteration `for x in d`: list elements, characters of a string
(as one-character strings), keys of a dict; other values are not
iterable (`TypeError`). -/
def pyIter (d : Json) : Except PyErr (List Json) :=
  match d with
  | .arr xs => .ok xs
  | .str s => .ok (s.data.map (fun ch => Json.str (String.mk [ch])))
  | .obj kvs => .ok (kvs.map (fun kv => Json.str kv.1))
  | _ => .error .typeError

/-! ### The typed note data model (convert.py lines 28-65)

The dataclass annotations in convert.py give the intended field types;
`Note`, `ListNote` and `TextNote` mirror them.  Attachment and
annotation specs are handled dynamically by the source (plain dicts),
so `attachments` keeps `Json` specs; annotation dicts are always
accessed through the same three string keys, modelled by
`AnnotationItem`. -/

/-- One entry of `listContent`: `{text, isChecked}`. -/
structure ListItem where
  text : String
  isChecked : Bool
deriving DecidableEq

/-- One entry of `annotations`: `{title, description, url}`. -/
structure AnnotationItem where
  title : String
  description : String
  url : String

/-- The common dataclass `Note` (convert.py lines 28-36). -/
structure Note where
  title : String
  color : String
  mtime_us : Int
  ctime_us : Int
  archived : Bool
  pinned : Bool
  trashed : Bool

/-- Dataclass `ListNote` (convert.py lines 39-51). -/
structure ListNote extends Note where
  list_content : List ListItem
  labels : Option (List String)
  annotations : Option (List AnnotationItem)
  attachments : Option (List Json)

/-- Dataclass `TextNote` (convert.py lines 54-62). -/
structure TextNote extends Note where
  text_content : String
  labels : Option (List String)
  annotations : Option (List AnnotationItem)
  attachments : Option (List Json)

/-- The rendered line for one checklist item:
`f'- [{check}] {item["text"]}'` with `check = 'x'` or `' '`. -/
def renderChecklistItem (item : ListItem) : String :=
  "- [" ++ (if item.isChecked then "x" else " ") ++ "] " ++ item.text

/-- `ListNote.text` (convert.py lines 46-51): one rendered line per
item, joined by newline. -/
def ListNote.text (n : ListNote) : String :=
  pyJoin "\n" (n.list_content.map renderChecklistItem)

/-- `TextNote.text` (convert.py lines 61-62). -/
def TextNote.text (n : TextNote) : String :=
  n.text_content

/-- `KeepNote = Union[ListNote, TextNote]` (convert.py line 65). -/
inductive KeepNote where
  | listNote : ListNote → KeepNote
  | textNote : TextNote → KeepNote

def KeepNote.title : KeepNote → String
  | .listNote n => n.title
  | .textNote n => n.title

def KeepNote.color : KeepNote → String
  | .listNote n => n.color
  | .textNote n => n.color

def KeepNote.mtime_us : KeepNote → Int
  | .listNote n => n.mtime_us
  | .textNote n => n.mtime_us

def KeepNote.ctime_us : KeepNote → Int
  | .listNote n => n.ctime_us
  | .textNote n => n.ctime_us

def KeepNote.archived : KeepNote → Bool
  | .listNote n => n.archived
  | .textNote n => n.archived

def KeepNote.pinned : KeepNote → Bool
  | .listNote n => n.pinned
  | .textNote n => n.pinned

def KeepNote.trashed : KeepNote → Bool
  | .listNote n => n.trashed
  | .textNote n => n.trashed

def KeepNote.labels : KeepNote → Option (List String)
  | .listNote n => n.labels
  | .textNote n => n.labels

def KeepNote.annotations : KeepNote → Option (List AnnotationItem)
  | .listNote n => n.annotations
  | .textNote n => n.annotations

def KeepNote.attachments : KeepNote → Option (List Json)
  | .listNote n => n.attachments
  | .textNote n => n.attachments

/-- `n.text()` dispatched on the runtime type, as the source's
`isinstance`-based union does. -/
def KeepNote.text : KeepNote → String
  | .listNote n => ListNote.text n
  | .textNote n => TextNote.text n

/-- Python truthiness of an optional string (`None` and `''` are falsy). -/
def optStrTruthy (o : Option String) : Bool :=
  match o with
  | some s => !(s == "")
  | none => false

/-- Python truthiness of an optional list (`None` and `[]` are falsy). -/
def optListTruthy {α : Type} (o : Option (List α)) : Bool :=
  match o with
  | some (_ :: _) => true
  | _ => false

/-- `o or []` for an optional list. -/
def optListVal {α : Type} (o : Option (List α)) : List α :=
  o.getD []

/-! ### datetime.fromtimestamp / strftime model (used by make_title)

`datetime.fromtimestamp(x)` converts a POSIX timestamp to a local civil
date-time; the local timezone is an environment input and is passed
explicitly as a UTC offset in seconds.  `convert.py` divides the
microsecond timestamp by `1.0e6`; the model floors to whole seconds
(`strftime` has no sub-second directive in the formats used, and float
rounding at astronomically large timestamps is not modelled). -/

/-- A broken-down civil date-time. -/
structure DateTime where
  year : Int
  month : Int
  day : Int
  hour : Int
  minute : Int
  second : Int

/-- Civil date from a count of days since 1970-01-01
(standard proleptic-Gregorian conversion). -/
def civilFromDays (z0 : Int) : Int × Int × Int :=
  let z := z0 + 719468
  let era := Int.fdiv z 146097
  let doe := z - era * 146097
  let yoe := Int.fdiv (doe - Int.fdiv doe 1460 + Int.fdiv doe 36524 - Int.fdiv doe 146096) 365
  let y := yoe + era * 400
  let doy := doe - (365 * yoe + Int.fdiv yoe 4 - Int.fdiv yoe 100)
  let mp := Int.fdiv (5 * doy + 2) 153
  let d := doy - Int.fdiv (153 * mp + 2) 5 + 1
  let m := mp + (if mp < 10 then 3 else -9)
  (y + (if m ≤ 2 then 1 else 0), m, d)

/-- `datetime.fromtimestamp(ctime_us / 1.0e6)` with the local timezone
given as `tzOffsetSec`. -/
def datetimeFromTimestamp (tzOffsetSec : Int) (ctime_us : Int) : DateTime :=
  let total := Int.fdiv ctime_us 1000000 + tzOffsetSec
  let days := Int.fdiv total 86400
  let sod := total - days * 86400
  let ymd := civilFromDays days
  ⟨ymd.1, ymd.2.1, ymd.2.2, Int.fdiv sod 3600, Int.fdiv (Int.emod sod 3600) 60, Int.emod sod 60⟩

/-- Zero-pad the decimal rendering of `n` to `width` digits. -/
def padZero (width : Nat) (n : Int) : String :=
  let s := toString n
  if s.length < width then String.mk (List.replicate (width - s.length) '0') ++ s else s

/-- Expansion of one `strftime` directive character.  The directives
appearing in convert.py's formats are supported; an unrecognized
directive is left verbatim. -/
def strftimeChar (dt : DateTime) (c : Char) : List Char :=
  if c = 'Y' then (padZero 4 dt.year).data
  else if c = 'm' then (padZero 2 dt.month).data
  else if c = 'd' then (padZero 2 dt.day).data
  else if c = 'H' then (padZero 2 dt.hour).data
  else if c = 'M' then (padZero 2 dt.minute).data
  else if c = 'S' then (padZero 2 dt.second).data
  else if c = '%' then ['%']
  else ['%', c]

/-- Character-by-character `strftime` template processing: ordinary
characters pass through, `%x` expands via `strftimeChar`. -/
def strftimeAux (dt : DateTime) : List Char → List Char
  | [] => []
  | c :: cs =>
    if c = '%' then
      match cs with
      | [] => ['%']
      | d :: ds => strftimeChar dt d ++ strftimeAux dt ds
    else
      c :: strftimeAux dt cs

/-- `dt.strftime(fmt)`. -/
def strftime (dt : DateTime) (fmt : String) : String :=
  String.mk (strftimeAux dt fmt.data)

/-! ### Title and naming policy (convert.py lines 101-118) -/

/-- `title_to_slug` (convert.py lines 101-103): `s.replace('/', '_')`,
deliberately permissive otherwise. -/
def title_to_slug (s : String) : String :=
  pyReplace s "/" "_"

/-- `truncate` (convert.py lines 106-110).  The source declares
`max_len: int = 10`; the only call site uses the default, passed
explicitly here. -/
def truncate (title : String) (max_len : Nat) : String :=
  if max_len < title.length then title.take max_len ++ "..." else title

/-- `make_title` (convert.py lines 113-118): expand the non-standard
`%@` (ISO-8601 timestamp) and `%#` (truncated summary) placeholders,
then apply `strftime` on the note's local creation time.  `tz` is the
environment's local-timezone offset used by `datetime.fromtimestamp`. -/
def make_title (tz : Int) (n : KeepNote) (fmt : String) : String :=
  let fmt1 := pyReplace fmt "%@" "%Y-%m-%dT%H:%M:%S"
  let fmt2 := pyReplace fmt1 "%#" "[SUMMARY]"
  let note_dt := datetimeFromTimestamp tz (KeepNote.ctime_us n)
  let title := strftime note_dt fmt2
  pyReplace title "[SUMMARY]" (truncate (KeepNote.text n) 10)

/-! ### Metadata and body serialisation helpers -/

/-- A front-matter metadata value as convert.py produces it:
a string, a boolean, or a list of label strings. -/
inductive MetaValue where
  | str : String → MetaValue
  | bool : Bool → MetaValue
  | strList : List String → MetaValue
deriving DecidableEq

/-- Python `repr` of a label string as it appears inside `str(list)`;
labels without quotes, backslashes or control characters render as the
string between single quotes, which is all the model needs. -/
def pyRepr (s : String) : String :=
  "'" ++ s ++ "'"

/-- Python `str(v)` for a metadata value (f-string conversion used by
`serialise_metadata`): strings verbatim, `True`/`False` for booleans,
`[...]` with comma-separated `repr`s for lists. -/
def pyStr : MetaValue → String
  | .str s => s
  | .bool b => if b then "True" else "False"
  | .strList xs => "[" ++ pyJoin ", " (xs.map pyRepr) ++ "]"

/-- `keepnote_metadata` (convert.py lines 121-128): fixed namespaced
keys in fixed order; `note.labels or []`. -/
def keepnote_metadata (n : KeepNote) : List (String × MetaValue) :=
  [("x-keep-color", MetaValue.str (KeepNote.color n)),
   ("x-keep-archived", MetaValue.bool (KeepNote.archived n)),
   ("x-keep-pinned", MetaValue.bool (KeepNote.pinned n)),
   ("x-keep-trashed", MetaValue.bool (KeepNote.trashed n)),
   ("x-keep-labels", MetaValue.strList (optListVal (KeepNote.labels n)))]

/-- `serialise_annotations` (convert.py lines 131-136): a header then
one bullet per annotation.  The header string reproduces the source's
literal bytes. -/
def serialise_annotations (anns : List AnnotationItem) : String :=
  "\n\nÂ§ Annotations:\n" ++
    String.join (anns.map (fun item =>
      "- " ++ item.title ++ ": [" ++ item.description ++ "](" ++ item.url ++ ")\n"))

/-- `spec['filePath']` followed by `Path(dir) / ...`: the relative path
of one attachment spec, or the exception the lookup raises
(`KeyError` for a dict without the key, `TypeError` for non-dict specs
or non-string path values). -/
def attachment_path_of (spec : Json) : Except PyErr String :=
  match pyGetItemStr spec "filePath" with
  | .error e => .error e
  | .ok (Json.str s) => .ok s
  | .ok _ => .error .typeError

/-- One embed reference of `serialise_attachments`:
`f'![[{path}]]'` for `path = Path(attachment_dir) / spec['filePath']`,
or `none` when the guarded block raises (`TypeError`/`KeyError`) and
the spec is skipped; a `None` attachment directory makes
`Path(attachment_dir)` itself raise inside the guard, so every spec is
skipped. -/
def embed_line (attachment_dir : Option String) (spec : Json) : Option String :=
  match attachment_dir with
  | none => none
  | some d =>
    match attachment_path_of spec with
    | .ok s => some ("![[" ++ pathStr (pathJoin (mkPath d) (mkPath s)) ++ "]]")
    | .error _ => none

/-- `serialise_attachments` (convert.py lines 139-147): one embed
reference per attachment, skipping specs whose guarded block raised. -/
def serialise_attachments (attachment_dir : Option String) (attachments : List Json) : String :=
  "\n" ++ pyJoin "\n" (attachments.filterMap (embed_line attachment_dir))

/-- Sequence a fallible map over a list, stopping at the first raised
exception — the evaluation order of a Python loop over a generator. -/
def mapExcept {α : Type} (f : Json → Except PyErr α) : List Json → Except PyErr (List α)
  | [] => .ok []
  | spec :: rest =>
    match f spec with
    | .error e => .error e
    | .ok v =>
      match mapExcept f rest with
      | .error e => .error e
      | .ok vs => .ok (v :: vs)

/-- One copy pair yielded by `list_attachments`:
`(srcdir / spec['filePath'], destdir / spec['filePath'])`; the lookup
has no exception handler. -/
def copy_pair (fnote : PyPath) (attachment_dir : String) (spec : Json) :
    Except PyErr (PyPath × PyPath) :=
  match attachment_path_of spec with
  | .ok s =>
    .ok (pathJoin (pathParent fnote) (mkPath s), pathJoin (mkPath attachment_dir) (mkPath s))
  | .error e => .error e

/-- `list_attachments` (convert.py lines 150-154): source/destination
copy pairs for each spec.  Unlike `serialise_attachments` there is no
exception handler: a malformed spec propagates its error.  `fnote` is
the note file's path; `attachments` is the note's attachment list. -/
def list_attachments (fnote : PyPath) (attachments : List Json)
    (attachment_dir : Option String) : Except PyErr (List (PyPath × PyPath)) :=
  match attachment_dir with
  | none => .error .typeError
  | some d => mapExcept (copy_pair fnote d) attachments

/-! ### The mapper (convert.py lines 157-200) -/

/-- The keyword-argument configuration of `keepnote_to_obsidian`,
with the source's defaults recorded in `default_config`.
`untitled_format` defaults to `None` in the source signature and to
`'%@ %#'` on the command line; calling `make_title` with `None` raises,
so the model keeps it as a required string. -/
structure Config where
  labels_as_folders : Bool
  labels_as_tags : Bool
  tag_pinned : Bool
  archive_dir : Option String
  trashed_dir : Option String
  annotations : Bool
  attachments : Bool
  attachment_dir : Option String
  untitled_format : String

/-- The defaults of `keepnote_to_obsidian`'s keyword arguments, with
the driver's `--untitled-fmt` default for the format. -/
def default_config : Config :=
  ⟨true, false, true, none, none, false, true, none, "%@ %#"⟩

/-- The produced `ObsidianNote` dataclass (convert.py lines 68-75). -/
structure ObsidianNote where
  path : PyPath
  metadata : List (String × MetaValue)
  tags : List String
  content : String
  ctime_us : Int
  mtime_us : Int

/-- Title resolution (convert.py lines 171-174): `make_title` for an
empty title, the title itself otherwise. -/
def effective_title (tz : Int) (n : KeepNote) (untitled_format : String) : String :=
  if KeepNote.title n = "" then make_title tz n untitled_format else KeepNote.title n

/-- The first label when the note has any (`n.labels` truthiness plus
`n.labels[0]`). -/
def first_label (n : KeepNote) : Option String :=
  match KeepNote.labels n with
  | some (l :: _) => some l
  | _ => none

/-- The destination path policy (convert.py lines 175-181):
`Path(f'{title_to_slug(title)}.md')`, optionally prefixed by the first
label, then by the archive folder (checked first) or the trashed
folder. -/
def note_path (tz : Int) (n : KeepNote) (cfg : Config) : PyPath :=
  let p0 := mkPath (title_to_slug (effective_title tz n cfg.untitled_format) ++ ".md")
  let p1 := if cfg.labels_as_folders && (first_label n).isSome then
      pathJoin (mkPath ((first_label n).getD "")) p0
    else p0
  if KeepNote.archived n && optStrTruthy cfg.archive_dir then
    pathJoin (mkPath (cfg.archive_dir.getD "")) p1
  else if KeepNote.trashed n && optStrTruthy cfg.trashed_dir then
    pathJoin (mkPath (cfg.trashed_dir.getD "")) p1
  else p1

/-- The tag policy (convert.py lines 183-187): labels (when enabled and
present) then `'pinned'` (when enabled and the note is pinned). -/
def note_tags (n : KeepNote) (cfg : Config) : List String :=
  (if cfg.labels_as_tags && optListTruthy (KeepNote.labels n) then optListVal (KeepNote.labels n) else []) ++
  (if cfg.tag_pinned && KeepNote.pinned n then ["pinned"] else [])

/-- The body (convert.py lines 188-192): rendered text, then attachment
embeds (when enabled and present), then annotations (when enabled and
present). -/
def note_content (n : KeepNote) (cfg : Config) : String :=
  let content := KeepNote.text n
  let content := if cfg.attachments && optListTruthy (KeepNote.attachments n) then
      content ++ serialise_attachments cfg.attachment_dir (optListVal (KeepNote.attachments n))
    else content
  if cfg.annotations && optListTruthy (KeepNote.annotations n) then
    content ++ serialise_annotations (optListVal (KeepNote.annotations n))
  else content

/-- `keepnote_to_obsidian` (convert.py lines 157-200). -/
def keepnote_to_obsidian (tz : Int) (n : KeepNote) (cfg : Config) : ObsidianNote :=
  ⟨note_path tz n cfg, keepnote_metadata n, note_tags n cfg, note_content n cfg,
   KeepNote.ctime_us n, KeepNote.mtime_us n⟩

/-! ### The document serializer (convert.py lines 203-234) -/

/-- The rendered front-matter line for one metadata entry
(`f'{k}: {v}'`). -/
def renderKV (kv : String × MetaValue) : String :=
  kv.1 ++ ": " ++ pyStr kv.2

/-- `serialise_metadata` (convert.py lines 203-208). -/
def serialise_metadata (m : List (String × MetaValue)) : String :=
  "---\n" ++ pyJoin "\n" (m.map renderKV) ++ "\n---\n"

/-- `serialise_tags` (convert.py lines 211-212):
`'\n'.join('#'+tag for tag in tags)`. -/
def serialise_tags (tags : List String) : String :=
  pyJoin "\n" (tags.map (fun tag => "#" ++ tag))

/-- `fix_trailing_newline` (convert.py lines 215-219). -/
def fix_trailing_newline (s : String) : String :=
  if s.data.getLast? = some '\n' then s else s ++ "\n"

/-- The optional front-matter block prefix of the markdown document. -/
def meta_prefix (note : ObsidianNote) (add_metadata : Bool) : String :=
  if add_metadata then serialise_metadata note.metadata ++ "\n" else ""

/-- `obsidiannote_to_markdown` (convert.py lines 222-234).  The byte
encoding (`md.encode('utf-8')`) is external I/O plumbing; the model
returns the path and the markdown text. -/
def obsidiannote_to_markdown (note : ObsidianNote) (add_metadata : Bool) :
    PyPath × String :=
  let md := meta_prefix note add_metadata
  let md := md ++ fix_trailing_newline note.content
  let md := if !note.tags.isEmpty then md ++ ("\n" ++ serialise_tags note.tags ++ "\n") else md
  (note.path, md)

/-! ### The record parser on dynamic values (convert.py lines 17-25, 78-98)

`parse_note` receives whatever `json.loads` produced and operates on it
dynamically; the dataclass constructors store the raw values without
type checking but reject unknown keyword arguments and missing required
ones with `TypeError`.  The dynamic result type keeps the raw `Json`
field values. -/

/-- `DEFAULT_NAMES` (convert.py lines 17-25). -/
def DEFAULT_NAMES : List (String × String) :=
  [("textContent", "text_content"),
   ("listContent", "list_content"),
   ("isTrashed", "trashed"),
   ("isPinned", "pinned"),
   ("isArchived", "archived"),
   ("userEditedTimestampUsec", "mtime_us"),
   ("createdTimestampUsec", "ctime_us")]

/-- `_rename_fields` (convert.py lines 78-83): for each `(from, to)`
pair in order, move the value when the old key is present.  The `in`
test, item lookup, item assignment and deletion each follow Python's
dynamic semantics and can raise. -/
def rename_fields : Json → List (String × String) → Except PyErr Json
  | d, [] => .ok d
  | d, (from_, to_) :: rest =>
    match pyContains d from_ with
    | .error e => .error e
    | .ok false => rename_fields d rest
    | .ok true =>
      match pyGetItemStr d from_ with
      | .error e => .error e
      | .ok v =>
        match pySetItemStr d to_ v with
        | .error e => .error e
        | .ok d2 =>
          match pyDelItemStr d2 from_ with
          | .error e => .error e
          | .ok d3 => rename_fields d3 rest

/-- The common dataclass fields with their raw (unchecked) values, as
the generated `__init__` stores them. -/
structure DynNoteCommon where
  title : Json
  color : Json
  mtime_us : Json
  ctime_us : Json
  archived : Json
  pinned : Json
  trashed : Json
  labels : Option Json
  annotations : Option Json
  attachments : Option Json

/-- A dynamically constructed `ListNote` or `TextNote`. -/
inductive KeepNoteDyn where
  | listNote : DynNoteCommon → Json → KeepNoteDyn
  | textNote : DynNoteCommon → Json → KeepNoteDyn

/-- Keyword lookup in the constructor's argument dict. -/
def ctorLookup (kvs : List (String × Json)) (k : String) : Option Json :=
  match kvs.find? (fun kv => kv.1 == k) with
  | some kv => some kv.2
  | none => none

/-- The parameter names shared by both dataclass constructors (the
`Note` fields plus the optional extras). -/
def commonNoteKeys : List String :=
  ["title", "color", "mtime_us", "ctime_us", "archived", "pinned", "trashed",
   "labels", "annotations", "attachments"]

/-- The generated `__init__` handling of the common fields: every
required field must be supplied, optional ones default to `None`. -/
def mkCommon (kvs : List (String × Json)) : Except PyErr DynNoteCommon :=
  match ctorLookup kvs "title", ctorLookup kvs "color", ctorLookup kvs "mtime_us",
      ctorLookup kvs "ctime_us", ctorLookup kvs "archived", ctorLookup kvs "pinned",
      ctorLookup kvs "trashed" with
  | some t, some c, some m, some ct, some a, some p, some tr =>
    .ok ⟨t, c, m, ct, a, p, tr, ctorLookup kvs "labels", ctorLookup kvs "annotations",
         ctorLookup kvs "attachments"⟩
  | _, _, _, _, _, _, _ => .error .typeError

/-- `ListNote(**n)`: `n` must be a mapping, every key must name a
constructor parameter, and all required parameters must be present;
otherwise `TypeError`. -/
def mkListNoteDyn (j : Json) : Except PyErr KeepNoteDyn :=
  match j with
  | .obj kvs =>
    if kvs.all (fun kv => (commonNoteKeys ++ ["list_content"]).contains kv.1) then
      match ctorLookup kvs "list_content", mkCommon kvs with
      | some lc, .ok common => .ok (.listNote common lc)
      | _, _ => .error .typeError
    else .error .typeError
  | _ => .error .typeError

/-- `TextNote(**n)`, analogous to `mkListNoteDyn`. -/
def mkTextNoteDyn (j : Json) : Except PyErr KeepNoteDyn :=
  match j with
  | .obj kvs =>
    if kvs.all (fun kv => (commonNoteKeys ++ ["text_content"]).contains kv.1) then
      match ctorLookup kvs "text_content", mkCommon kvs with
      | some tc, .ok common => .ok (.textNote common tc)
      | _, _ => .error .typeError
    else .error .typeError
  | _ => .error .typeError

/-- `parse_note` (convert.py lines 86-98) applied to the value returned
by a successful `json.loads` (an unparseable input is caught by the
source's `except JSONDecodeError: return None` before this point).
`Except.error` models an uncaught Python exception; `.ok none` is the
implicit `return None` ("not a note"). -/
def parse_note (j : Json) : Except PyErr (Option KeepNoteDyn) :=
  match rename_fields j DEFAULT_NAMES with
  | .error e => .error e
  | .ok n =>
    match pyContains n "labels" with
    | .error e => .error e
    | .ok hasLabels =>
      let relabelled : Except PyErr Json :=
        if hasLabels then
          match pyGetItemStr n "labels" with
          | .error e => .error e
          | .ok ls =>
            match pyIter ls with
            | .error e => .error e
            | .ok items =>
              match items.mapM (fun label => pyGetItemStr label "name") with
              | .error e => .error e
              | .ok names => pySetItemStr n "labels" (Json.arr names)
        else .ok n
      match relabelled with
      | .error e => .error e
      | .ok n2 =>
        match pyContains n2 "list_content" with
        | .error e => .error e
        | .ok true =>
          match mkListNoteDyn n2 with
          | .error e => .error e
          | .ok note => .ok (some note)
        | .ok false =>
          match pyContains n2 "text_content" with
          | .error e => .error e
          | .ok true =>
            match mkTextNoteDyn n2 with
            | .error e => .error e
            | .ok note => .ok (some note)
          | .ok false => .ok none

/-! ### Front-matter re-parsing (claim C7's inverse operation)

The spec's round-trip property reads the emitted front-matter back:
"the 'key: value' lines between the two '---' delimiter lines".
`parse_front_matter_spec` implements exactly that reading: the document
must start with a `---` line, the block runs to the next `---` line
(which must exist), and each line in between is split at its first
`': '` into a key and a value. -/

/-- Split one front-matter line at its first `': '`. -/
def splitKVLine (line : List Char) : Option (String × String) :=
  (splitAtSub [':', ' '] line).map (fun p => (String.mk p.1, String.mk p.2))

/-- Parse every line, failing if any line fails. -/
def mapOption {α : Type} (f : List Char → Option α) : List (List Char) → Option (List α)
  | [] => some []
  | l :: rest =>
    match f l with
    | none => none
    | some v =>
      match mapOption f rest with
      | none => none
      | some vs => some (v :: vs)

/-- Parse the split lines of a document: the first line must be `---`,
the block runs to the next `---` line (which must exist), and each line
in between is a `key: value` entry. -/
def parse_fm_lines : List (List Char) → Option (List (String × String))
  | [] => none
  | l0 :: rest =>
    if l0 = "---".data then
      if (rest.dropWhile (fun l => !(l == "---".data))).isEmpty then none
      else mapOption splitKVLine (rest.takeWhile (fun l => !(l == "---".data)))
    else none

/-- Re-parse a serialized document's front-matter block into its
`key: value` entries, in order. -/
def parse_front_matter_spec (s : String) : Option (List (String × String)) :=
  parse_fm_lines (splitOnChar '\n' s.data)

/-! ## Helper lemmas -/

theorem data_append (s t : String) : (s ++ t).data = s.data ++ t.data := rfl

theorem splitOnChar_no_sep {sep : Char} {l : List Char} (h : sep ∉ l) :
    splitOnChar sep l = [l] := by
  induction l with
  | nil => rfl
  | cons c rest ih =>
    have hc : ¬ c = sep := by
      intro e
      exact h (by rw [e]; exact List.mem_cons_self _ _)
    have ih2 := ih (fun hm => h (List.mem_cons_of_mem _ hm))
    simp [splitOnChar, hc, ih2]

theorem splitOnChar_append_sep {sep : Char} {a b : List Char} (h : sep ∉ a) :
    splitOnChar sep (a ++ sep :: b) = a :: splitOnChar sep b := by
  induction a with
  | nil => simp [splitOnChar]
  | cons c rest ih =>
    have hc : ¬ c = sep := by
      intro e
      exact h (by rw [e]; exact List.mem_cons_self _ _)
    have ih2 := ih (fun hm => h (List.mem_cons_of_mem _ hm))
    simp [splitOnChar, hc, ih2]

theorem splitOnChar_join_append {sep : Char} {b : List Char} :
    ∀ {lines : List (List Char)}, lines ≠ [] → (∀ l ∈ lines, sep ∉ l) →
      splitOnChar sep (joinChars [sep] lines ++ sep :: b) = lines ++ splitOnChar sep b
  | [], h, _ => absurd rfl h
  | [x], _, hs => by
    have hx : sep ∉ x := hs x (List.mem_singleton.mpr rfl)
    simpa [joinChars] using splitOnChar_append_sep hx
  | x :: y :: ys, _, hs => by
    have hx : sep ∉ x := hs x (List.mem_cons_self _ _)
    have ih := @splitOnChar_join_append sep b (y :: ys) (List.cons_ne_nil _ _)
      (fun l hl => hs l (List.mem_cons_of_mem _ hl))
    have hshape : joinChars [sep] (x :: y :: ys) ++ sep :: b =
        x ++ sep :: (joinChars [sep] (y :: ys) ++ sep :: b) := by
      simp [joinChars]
    rw [hshape, splitOnChar_append_sep hx, ih]
    rfl

theorem splitOnChar_join {sep : Char} :
    ∀ {lines : List (List Char)}, lines ≠ [] → (∀ l ∈ lines, sep ∉ l) →
      splitOnChar sep (joinChars [sep] lines) = lines
  | [], h, _ => absurd rfl h
  | [x], _, hs => by
    have hx : sep ∉ x := hs x (List.mem_singleton.mpr rfl)
    simpa [joinChars] using splitOnChar_no_sep hx
  | x :: y :: ys, _, hs => by
    have hx : sep ∉ x := hs x (List.mem_cons_self _ _)
    have ih := @splitOnChar_join sep (y :: ys) (List.cons_ne_nil _ _)
      (fun l hl => hs l (List.mem_cons_of_mem _ hl))
    have hshape : joinChars [sep] (x :: y :: ys) = x ++ sep :: joinChars [sep] (y :: ys) := by
      simp [joinChars]
    rw [hshape, splitOnChar_append_sep hx, ih]

theorem takeWhile_middle {α : Type} (p : α → Bool) :
    ∀ (xs : List α) (y : α) (ys : List α), (∀ x ∈ xs, p x = true) → p y = false →
      (xs ++ y :: ys).takeWhile p = xs
  | [], y, ys, _, hy => by simp [List.takeWhile, hy]
  | x :: xs, y, ys, hx, hy => by
    have h1 : p x = true := hx x (List.mem_cons_self _ _)
    have ih := takeWhile_middle p xs y ys (fun z hz => hx z (List.mem_cons_of_mem _ hz)) hy
    simp [List.takeWhile, h1, ih]

theorem dropWhile_middle {α : Type} (p : α → Bool) :
    ∀ (xs : List α) (y : α) (ys : List α), (∀ x ∈ xs, p x = true) → p y = false →
      (xs ++ y :: ys).dropWhile p = y :: ys
  | [], y, ys, _, hy => by simp [List.dropWhile, hy]
  | x :: xs, y, ys, hx, hy => by
    have h1 : p x = true := hx x (List.mem_cons_self _ _)
    have ih := dropWhile_middle p xs y ys (fun z hz => hx z (List.mem_cons_of_mem _ hz)) hy
    simp [List.dropWhile, h1, ih]

theorem replaceFromFuel_single (a b : Char) :
    ∀ (l : List Char) (fuel : Nat), l.length ≤ fuel →
      replaceFromFuel [a] [b] fuel l = l.map (fun c => if c = a then b else c)
  | [], fuel, _ => by cases fuel <;> rfl
  | _ :: _, 0, h => by simp at h
  | c :: rest, fuel + 1, h => by
    have hrest : rest.length ≤ fuel := Nat.succ_le_succ_iff.mp h
    have ih := replaceFromFuel_single a b rest fuel hrest
    by_cases hc : c = a
    · have hpre : [a].isPrefixOf (c :: rest) = true := by
        simp [List.isPrefixOf, hc]
      simp [replaceFromFuel, hpre, hc, ih]
    · have hpre : ¬ ([a].isPrefixOf (c :: rest) = true) := by
        simp [List.isPrefixOf]
        intro e
        exact absurd e.symm hc
      simp [replaceFromFuel, hpre, hc, ih]

theorem getLast?_append_right {α : Type} {l2 : List α} {x : α}
    (h : l2.getLast? = some x) : ∀ l1 : List α, (l1 ++ l2).getLast? = some x
  | [] => h
  | c :: rest => by
    have ih := getLast?_append_right h rest
    cases hr : rest ++ l2 with
    | nil =>
      rw [hr] at ih
      exact absurd ih (by simp)
    | cons y ys =>
      rw [List.cons_append, hr]
      rw [hr] at ih
      rw [List.getLast?_cons_cons]
      exact ih

/-! ## Claim C1: the produced path never escapes the destination root -/

/-- `pathOk p last`: the path is relative, has no `'..'` traversal
segment, and its final segment (the filename) is `last`. -/
def pathOk (p : PyPath) (last : String) : Prop :=
  p.absolute = false ∧ ".." ∉ p.segs ∧ p.segs.getLast? = some last

/-- A configured folder name (or note label) that denotes a relative,
traversal-free path prefix. -/
def relSafeSeg (s : String) : Prop :=
  (mkPath s).absolute = false ∧ ".." ∉ (mkPath s).segs

theorem title_to_slug_data (s : String) :
    (title_to_slug s).data = s.data.map (fun c => if c = '/' then '_' else c) := by
  show replaceFromFuel ['/'] ['_'] s.data.length s.data = _
  exact replaceFromFuel_single '/' '_' s.data s.data.length (Nat.le_refl _)

theorem slash_not_mem_slug (s : String) : '/' ∉ (title_to_slug s).data := by
  rw [title_to_slug_data]
  intro hm
  rcases List.mem_map.mp hm with ⟨c, _, hc⟩
  by_cases e : c = '/'
  · rw [if_pos e] at hc
    exact absurd hc (by decide)
  · rw [if_neg e] at hc
    exact e hc

theorem mkPath_single {s : String} (h : '/' ∉ s.data) (hne : s.data ≠ [])
    (hdot : s.data ≠ ['.']) : mkPath s = ⟨false, [s]⟩ := by
  unfold mkPath
  have habs : (s.data.head? == some '/') = false := by
    cases hd : s.data with
    | nil => rfl
    | cons c cs =>
      have hc : ¬ c = '/' := by
        intro e
        exact h (by rw [hd, e]; exact List.mem_cons_self _ _)
      simp [List.head?, hc]
  have hsplit : splitOnChar '/' s.data = [s.data] := splitOnChar_no_sep h
  have h1 : (!(s.data == []) && !(s.data == ['.'])) = true := by
    simp [hne, hdot]
  simp only [hsplit, habs, List.filter_cons, h1, if_true, List.filter_nil,
    List.map_cons, List.map_nil]

theorem pathJoin_ok {p q : PyPath} {last : String}
    (hp1 : p.absolute = false) (hp2 : ".." ∉ p.segs) (hq : pathOk q last) :
    pathOk (pathJoin p q) last := by
  obtain ⟨hq1, hq2, hq3⟩ := hq
  unfold pathJoin
  rw [hq1]
  refine ⟨hp1, ?_, getLast?_append_right hq3 p.segs⟩
  intro hm
  rcases List.mem_append.mp hm with hm | hm
  · exact hp2 hm
  · exact hq2 hm

/-- Claim C1 (amended): for every note and configuration whose
path-prefix inputs are themselves relative and traversal-free — the
first label when `labels_as_folders` applies, and the configured
archive/trashed folder names — the produced relative path is relative,
contains no `'..'` segment, ends in the slugged-title filename, and the
slug rewrites every `'/'` of the effective title to `'_'` (a literal
substitution, never a path separator).  The source applies no such
sanitisation to labels or folder names, so the restriction on them is
necessary (see the counterexample). -/
theorem c1_amended_path_never_escapes (tz : Int) (n : KeepNote) (cfg : Config)
    (hlab : cfg.labels_as_folders = true → ∀ l, first_label n = some l → relSafeSeg l)
    (harch : ∀ d, cfg.archive_dir = some d → relSafeSeg d)
    (htr : ∀ d, cfg.trashed_dir = some d → relSafeSeg d) :
    pathOk (keepnote_to_obsidian tz n cfg).path
      (title_to_slug (effective_title tz n cfg.untitled_format) ++ ".md") ∧
    '/' ∉ (title_to_slug (effective_title tz n cfg.untitled_format)).data ∧
    (title_to_slug (effective_title tz n cfg.untitled_format)).data =
      (effective_title tz n cfg.untitled_format).data.map
        (fun c => if c = '/' then '_' else c) := by
  refine ⟨?_, slash_not_mem_slug _, title_to_slug_data _⟩
  show pathOk (note_path tz n cfg) _
  have hfn_data : (title_to_slug (effective_title tz n cfg.untitled_format) ++ ".md").data =
      (title_to_slug (effective_title tz n cfg.untitled_format)).data ++ ['.', 'm', 'd'] := rfl
  have hnoslash : '/' ∉ (title_to_slug (effective_title tz n cfg.untitled_format) ++ ".md").data := by
    rw [hfn_data]
    intro hm
    rcases List.mem_append.mp hm with hm | hm
    · exact slash_not_mem_slug _ hm
    · exact absurd hm (by decide)
  have hne : (title_to_slug (effective_title tz n cfg.untitled_format) ++ ".md").data ≠ [] := by
    rw [hfn_data]
    simp
  have hdot : (title_to_slug (effective_title tz n cfg.untitled_format) ++ ".md").data ≠ ['.'] := by
    rw [hfn_data]
    intro e
    have := congrArg List.length e
    simp at this
  have h0 : pathOk (mkPath (title_to_slug (effective_title tz n cfg.untitled_format) ++ ".md"))
      (title_to_slug (effective_title tz n cfg.untitled_format) ++ ".md") := by
    rw [mkPath_single hnoslash hne hdot]
    refine ⟨rfl, ?_, rfl⟩
    intro hm
    have hm2 : (".." : String) ∈ [title_to_slug (effective_title tz n cfg.untitled_format) ++ ".md"] := hm
    have heq : (".." : String) = title_to_slug (effective_title tz n cfg.untitled_format) ++ ".md" :=
      List.mem_singleton.mp hm2
    have := congrArg String.data heq.symm
    rw [hfn_data] at this
    have hlen := congrArg List.length this
    simp at hlen
  have h1 : pathOk
      (if cfg.labels_as_folders && (first_label n).isSome then
        pathJoin (mkPath ((first_label n).getD ""))
          (mkPath (title_to_slug (effective_title tz n cfg.untitled_format) ++ ".md"))
      else mkPath (title_to_slug (effective_title tz n cfg.untitled_format) ++ ".md"))
      (title_to_slug (effective_title tz n cfg.untitled_format) ++ ".md") := by
    by_cases hl : (cfg.labels_as_folders && (first_label n).isSome) = true
    · rw [if_pos hl]
      rw [Bool.and_eq_true] at hl
      obtain ⟨hf, hs⟩ := hl
      obtain ⟨l, hlx⟩ := Option.isSome_iff_exists.mp hs
      obtain ⟨ha, hb⟩ := hlab hf l hlx
      rw [hlx]
      exact pathJoin_ok ha hb h0
    · rw [if_neg hl]
      exact h0
  unfold note_path
  by_cases h2 : (KeepNote.archived n && optStrTruthy cfg.archive_dir) = true
  · rw [if_pos h2]
    rw [Bool.and_eq_true] at h2
    obtain ⟨_, hs⟩ := h2
    cases hd : cfg.archive_dir with
    | none => rw [hd] at hs; exact absurd hs (by decide)
    | some d =>
      obtain ⟨ha, hb⟩ := harch d hd
      exact pathJoin_ok ha hb h1
  · rw [if_neg h2]
    by_cases h3 : (KeepNote.trashed n && optStrTruthy cfg.trashed_dir) = true
    · rw [if_pos h3]
      rw [Bool.and_eq_true] at h3
      obtain ⟨_, hs⟩ := h3
      cases hd : cfg.trashed_dir with
      | none => rw [hd] at hs; exact absurd hs (by decide)
      | some d =>
        obtain ⟨ha, hb⟩ := htr d hd
        exact pathJoin_ok ha hb h1
    · rw [if_neg h3]
      exact h1

/-- A note carrying a traversal label, as exported data may. -/
def c1note : KeepNote :=
  .textNote ⟨⟨"t", "DEFAULT", 1, 2, false, false, false⟩, "b", some ["../evil"], none, none⟩

/-- Claim C1, as frozen, is false: with the default configuration
(`labels_as_folders` on) a note whose first label is `"../evil"`
produces a path containing the traversal segment `".."` — the claim's
"for all values of ... labels" fails because labels are joined into the
path without sanitisation. -/
theorem c1_counterexample :
    ".." ∈ (keepnote_to_obsidian 0 c1note default_config).path.segs ∧
    (keepnote_to_obsidian 0 c1note default_config).path.segs = ["..", "evil", "t.md"] := by
  exact ⟨by decide, by decide⟩

/-- A titled note with no labels, whose title contains a slash. -/
def w1note : KeepNote :=
  .textNote ⟨⟨"My/Note", "DEFAULT", 1, 2, false, false, false⟩, "body", none, none, none⟩

/-- The configuration of `c1_witness`: defaults plus archive and
trashed folders. -/
def w1cfg : Config :=
  ⟨true, false, true, some "Archived", some "Trashed", false, true, none, "%@ %#"⟩

theorem c1_witness :
    pathOk (keepnote_to_obsidian 0 w1note w1cfg).path
      (title_to_slug (effective_title 0 w1note w1cfg.untitled_format) ++ ".md") ∧
    '/' ∉ (title_to_slug (effective_title 0 w1note w1cfg.untitled_format)).data ∧
    (title_to_slug (effective_title 0 w1note w1cfg.untitled_format)).data =
      (effective_title 0 w1note w1cfg.untitled_format).data.map
        (fun c => if c = '/' then '_' else c) := by
  refine c1_amended_path_never_escapes 0 w1note w1cfg ?_ ?_ ?_
  · intro _ l hl
    have hl2 : (none : Option String) = some l := hl
    exact Option.noConfusion hl2
  · intro d hd
    have hd2 : some "Archived" = some d := hd
    have he : "Archived" = d := Option.some.inj hd2
    rw [← he]
    exact ⟨by decide, by decide⟩
  · intro d hd
    have hd2 : some "Trashed" = some d := hd
    have he : "Trashed" = d := Option.some.inj hd2
    rw [← he]
    exact ⟨by decide, by decide⟩

end GKeep

namespace GKeep

/-! ## Claim C10: timestamps pass through the mapper unchanged -/

/-- Claim C10: for every note record and configuration, the mapper
copies `ctime_us` and `mtime_us` into the produced document unchanged
(no rescaling or clamping), keeping them available for the driver's
mtime-setting step. -/
theorem c10_timestamp_passthrough (tz : Int) (n : KeepNote) (cfg : Config) :
    (keepnote_to_obsidian tz n cfg).ctime_us = KeepNote.ctime_us n ∧
    (keepnote_to_obsidian tz n cfg).mtime_us = KeepNote.mtime_us n :=
  ⟨rfl, rfl⟩

/-! ## Claim C5: archived wins over trashed -/

/-- The same configuration with both state folders removed. -/
def cfg_without_state_dirs (cfg : Config) : Config :=
  ⟨cfg.labels_as_folders, cfg.labels_as_tags, cfg.tag_pinned, none, none,
   cfg.annotations, cfg.attachments, cfg.attachment_dir, cfg.untitled_format⟩

/-- The same configuration with only the trashed folder removed. -/
def cfg_without_trashed_dir (cfg : Config) : Config :=
  ⟨cfg.labels_as_folders, cfg.labels_as_tags, cfg.tag_pinned, cfg.archive_dir, none,
   cfg.annotations, cfg.attachments, cfg.attachment_dir, cfg.untitled_format⟩

/-- Claim C5: for a note with `archived = true` and `trashed = true` and
both an archive and a trashed subfolder configured, the produced path is
the archive-folder prefix of the state-folder-free path, and removing
the trashed folder from the configuration changes nothing — the
archived flag is checked first, so archived wins. -/
theorem c5_archived_wins (tz : Int) (n : KeepNote) (cfg : Config) (a t : String)
    (ha : cfg.archive_dir = some a) (ht : cfg.trashed_dir = some t)
    (hane : a ≠ "") (htne : t ≠ "")
    (harch : KeepNote.archived n = true) (htrash : KeepNote.trashed n = true) :
    (keepnote_to_obsidian tz n cfg).path =
      pathJoin (mkPath a) ((keepnote_to_obsidian tz n (cfg_without_state_dirs cfg)).path) ∧
    (keepnote_to_obsidian tz n cfg).path =
      (keepnote_to_obsidian tz n (cfg_without_trashed_dir cfg)).path := by
  constructor
  · show note_path tz n cfg = pathJoin (mkPath a) (note_path tz n (cfg_without_state_dirs cfg))
    simp [note_path, cfg_without_state_dirs, harch, htrash, ha, optStrTruthy, hane]
  · show note_path tz n cfg = note_path tz n (cfg_without_trashed_dir cfg)
    simp [note_path, cfg_without_trashed_dir, harch, htrash, ha, optStrTruthy, hane]

/-- An archived-and-trashed note. -/
def w5note : KeepNote :=
  .textNote ⟨⟨"n", "DEFAULT", 1, 2, true, false, true⟩, "b", none, none, none⟩

/-- A configuration with both state folders set. -/
def w5cfg : Config :=
  ⟨true, false, true, some "Archived", some "Trashed", false, true, none, "%@ %#"⟩

theorem c5_witness :
    (keepnote_to_obsidian 0 w5note w5cfg).path =
      pathJoin (mkPath "Archived") ((keepnote_to_obsidian 0 w5note (cfg_without_state_dirs w5cfg)).path) ∧
    (keepnote_to_obsidian 0 w5note w5cfg).path =
      (keepnote_to_obsidian 0 w5note (cfg_without_trashed_dir w5cfg)).path :=
  c5_archived_wins 0 w5note w5cfg "Archived" "Trashed" rfl rfl
    (by decide) (by decide) rfl rfl

/-! ## Claim C8: untitled-note naming is deterministic -/

/-- Claim C8: the filename stem computed for an untitled note is a pure
function of the creation timestamp, the rendered body text, the format
template and the (fixed) local-timezone environment: no run-dependent
input such as the current time or randomness enters the computation, so
two notes agreeing on those inputs — whatever their other fields — get
the identical stem, reproducibly. -/
theorem c8_untitled_stem_deterministic (tz : Int) (fmt : String) (n1 n2 : KeepNote)
    (h1 : KeepNote.title n1 = "") (h2 : KeepNote.title n2 = "")
    (hc : KeepNote.ctime_us n1 = KeepNote.ctime_us n2)
    (ht : KeepNote.text n1 = KeepNote.text n2) :
    title_to_slug (effective_title tz n1 fmt) = title_to_slug (effective_title tz n2 fmt) ∧
    effective_title tz n1 fmt = make_title tz n1 fmt := by
  have he1 : effective_title tz n1 fmt = make_title tz n1 fmt := by
    unfold effective_title
    rw [if_pos h1]
  have he2 : effective_title tz n2 fmt = make_title tz n2 fmt := by
    unfold effective_title
    rw [if_pos h2]
  have hm : make_title tz n1 fmt = make_title tz n2 fmt := by
    unfold make_title
    rw [hc, ht]
  exact ⟨by rw [he1, he2, hm], he1⟩

/-- Two untitled notes agreeing on creation time and body text but
differing in color, modification time and state flags. -/
def w8a : KeepNote :=
  .textNote ⟨⟨"", "DEFAULT", 11, 7, false, false, false⟩, "milk", none, none, none⟩

/-- See `w8a`. -/
def w8b : KeepNote :=
  .textNote ⟨⟨"", "BLUE", 99, 7, true, true, true⟩, "milk", none, none, none⟩

theorem c8_witness :
    title_to_slug (effective_title 0 w8a "%@ %#") = title_to_slug (effective_title 0 w8b "%@ %#") ∧
    effective_title 0 w8a "%@ %#" = make_title 0 w8a "%@ %#" :=
  c8_untitled_stem_deterministic 0 "%@ %#" w8a w8b rfl rfl rfl rfl

/-! ## Claim C9: the summary placeholder truncates at 10 characters -/

/-- Claim C9: in the untitled-name format, the `%#` summary placeholder
expands to the note's rendered body text truncated to its first 10
characters with `'...'` appended exactly when the text exceeds 10
characters; a text of at most 10 characters is used verbatim. -/
theorem c9_summary_placeholder (tz : Int) (n : KeepNote) :
    make_title tz n "%#" = truncate (KeepNote.text n) 10 ∧
    ((KeepNote.text n).length ≤ 10 → make_title tz n "%#" = KeepNote.text n) ∧
    (10 < (KeepNote.text n).length →
      make_title tz n "%#" = (KeepNote.text n).take 10 ++ "...") := by
  have h1 : make_title tz n "%#" = String.mk ((truncate (KeepNote.text n) 10).data ++ []) := rfl
  have h2 : make_title tz n "%#" = truncate (KeepNote.text n) 10 := by
    rw [h1, List.append_nil]
  refine ⟨h2, ?_, ?_⟩
  · intro hle
    rw [h2]
    unfold truncate
    rw [if_neg (by omega : ¬ 10 < (KeepNote.text n).length)]
  · intro hgt
    rw [h2]
    unfold truncate
    rw [if_pos hgt]

/-- An untitled note with a short body. -/
def w9note : KeepNote :=
  .textNote ⟨⟨"", "DEFAULT", 1, 2, false, false, false⟩, "hi", none, none, none⟩

theorem c9_witness : make_title 0 w9note "%#" = "hi" := by
  have h := (c9_summary_placeholder 0 w9note).2.1 (by decide)
  exact h

end GKeep

namespace GKeep

/-! ## Claim C3: the tag section of the serialized document -/

/-- A document with two tags and no metadata. -/
def c3note : ObsidianNote := ⟨⟨false, []⟩, [], ["a", "b"], "x", 0, 0⟩

/-- Claim C3, as frozen, is false: with tags `["a", "b"]` the serializer
emits the tags newline-separated, one per line (`"#a\n#b"`), not
space-separated on one single line (`"#a #b"`). -/
theorem c3_counterexample :
    (obsidiannote_to_markdown c3note false).2 = "x\n\n#a\n#b\n" ∧
    (obsidiannote_to_markdown c3note false).2 ≠ "x\n\n#a #b\n" :=
  ⟨by decide, by decide⟩

/-- Claim C3 (amended): for a non-empty tag list the serializer emits,
after the newline-terminated body, a blank line and then the tags, each
prefixed with `'#'` and joined by newlines — one tag per line rather
than space-separated on a single line; for an empty tag list no tag
section is emitted. -/
theorem c3_amended_tag_block (note : ObsidianNote) (am : Bool) :
    (note.tags = [] →
      (obsidiannote_to_markdown note am).2 =
        meta_prefix note am ++ fix_trailing_newline note.content) ∧
    (note.tags ≠ [] →
      (obsidiannote_to_markdown note am).2 =
        meta_prefix note am ++ fix_trailing_newline note.content ++
          ("\n" ++ serialise_tags note.tags ++ "\n") ∧
      serialise_tags note.tags = pyJoin "\n" (note.tags.map (fun tag => "#" ++ tag))) := by
  constructor
  · intro h
    unfold obsidiannote_to_markdown
    rw [h]
    simp
  · intro h
    refine ⟨?_, rfl⟩
    unfold obsidiannote_to_markdown
    cases ht : note.tags with
    | nil => exact absurd ht h
    | cons x xs => simp [ht]

/-- A document with one metadata entry and one tag. -/
def w3note : ObsidianNote :=
  ⟨⟨false, []⟩, [("k", MetaValue.str "v")], ["t"], "body", 0, 0⟩

theorem c3_witness :
    (obsidiannote_to_markdown w3note true).2 = "---\nk: v\n---\n\nbody\n\n#t\n" := by
  have h := ((c3_amended_tag_block w3note true).2 (by decide)).1
  exact h

/-! ## Claim C4: checklist rendering -/

theorem renderChecklistItem_no_newline {it : ListItem} (h : '\n' ∉ it.text.data) :
    '\n' ∉ (renderChecklistItem it).data := by
  intro hm
  unfold renderChecklistItem at hm
  rw [data_append, data_append, data_append] at hm
  rcases List.mem_append.mp hm with hm | hm
  · rcases List.mem_append.mp hm with hm | hm
    · rcases List.mem_append.mp hm with hm | hm
      · exact absurd hm (by decide)
      · cases hck : it.isChecked
        · rw [hck] at hm
          exact absurd hm (by decide)
        · rw [hck] at hm
          exact absurd hm (by decide)
    · exact absurd hm (by decide)
  · exact h hm

/-- Claim C4: the rendered body of a list-type note is the item lines
in original order joined by newlines (`- [x] text` when checked,
`- [ ] text` when not); when no item text itself contains a newline,
splitting the body at newlines recovers exactly one line per item, so
the number of rendered checklist lines equals the number of items and
the i-th line's checkbox state matches the i-th item's `checked`. -/
theorem c4_checklist_lines (ln : ListNote) :
    ListNote.text ln = pyJoin "\n" (ln.list_content.map renderChecklistItem) ∧
    (ln.list_content = [] → ListNote.text ln = "") ∧
    ((∀ it ∈ ln.list_content, '\n' ∉ it.text.data) → ln.list_content ≠ [] →
      splitOnChar '\n' (ListNote.text ln).data =
        ln.list_content.map (fun it => (renderChecklistItem it).data) ∧
      (splitOnChar '\n' (ListNote.text ln).data).length = ln.list_content.length) := by
  refine ⟨rfl, ?_, ?_⟩
  · intro h
    unfold ListNote.text
    rw [h]
    rfl
  · intro hnl hne
    have hlines : ∀ l ∈ ln.list_content.map (fun it => (renderChecklistItem it).data),
        '\n' ∉ l := by
      intro l hl
      rcases List.mem_map.mp hl with ⟨it, hit, he⟩
      rw [← he]
      exact renderChecklistItem_no_newline (hnl it hit)
    have hmapne : ln.list_content.map (fun it => (renderChecklistItem it).data) ≠ [] := by
      simp [hne]
    have hdata : (ListNote.text ln).data =
        joinChars ['\n'] (ln.list_content.map (fun it => (renderChecklistItem it).data)) := by
      show (pyJoin "\n" (ln.list_content.map renderChecklistItem)).data = _
      unfold pyJoin
      rw [List.map_map]
      rfl
    have hsplit := splitOnChar_join hmapne hlines
    rw [hdata]
    exact ⟨hsplit, by rw [hsplit, List.length_map]⟩

/-- A two-item checklist note. -/
def w4list : ListNote :=
  ⟨⟨"Groceries", "DEFAULT", 1, 2, false, false, false⟩,
   [⟨"milk", true⟩, ⟨"eggs", false⟩], none, none, none⟩

theorem c4_witness :
    splitOnChar '\n' (ListNote.text w4list).data = ["- [x] milk".data, "- [ ] eggs".data] ∧
    (splitOnChar '\n' (ListNote.text w4list).data).length = 2 := by
  have h := (c4_checklist_lines w4list).2.2 (by decide) (by decide)
  exact ⟨h.1, h.2⟩

end GKeep

namespace GKeep

/-! ## Claim C2: totality of parse_note on parseable documents -/

/-- A parseable note document with all required fields, a content field
— and one unknown extra field. -/
def c2doc : Json :=
  .obj [("title", .str "t"), ("color", .str "DEFAULT"), ("isTrashed", .bool false),
        ("isPinned", .bool false), ("isArchived", .bool false),
        ("userEditedTimestampUsec", .str "1"), ("createdTimestampUsec", .str "2"),
        ("listContent", .arr []), ("extra", .null)]

/-- Claim C2, as frozen, is false: this parseable object document has a
list-content field after normalization, yet `parse_note` raises
`TypeError` instead of returning a record — the dataclass constructor
rejects the unknown keyword `extra`, so unknown fields do not pass
through.  (A non-object document such as the JSON number `5` likewise
raises `TypeError` in the renaming step's `in` test.) -/
theorem c2_counterexample : parse_note c2doc = Except.error PyErr.typeError := rfl

/-- Claim C2 (amended): `parse_note` is total on object documents whose
keys are exactly the expected vendor note fields, whatever their
values: with a `listContent` or `textContent` field it returns the
constructed record, and with neither content field it returns the
"not a note" signal.  Parseable documents outside these shapes can
raise: non-container documents and unknown or missing fields propagate
a `TypeError` (see the counterexample). -/
theorem c2_amended_parse_note_total_on_expected_shapes :
    (∀ t c tr p a m ct lc : Json,
      parse_note (Json.obj [("title", t), ("color", c), ("isTrashed", tr), ("isPinned", p),
        ("isArchived", a), ("userEditedTimestampUsec", m), ("createdTimestampUsec", ct),
        ("listContent", lc)]) =
      Except.ok (some (KeepNoteDyn.listNote ⟨t, c, m, ct, a, p, tr, none, none, none⟩ lc))) ∧
    (∀ t c tr p a m ct tc : Json,
      parse_note (Json.obj [("title", t), ("color", c), ("isTrashed", tr), ("isPinned", p),
        ("isArchived", a), ("userEditedTimestampUsec", m), ("createdTimestampUsec", ct),
        ("textContent", tc)]) =
      Except.ok (some (KeepNoteDyn.textNote ⟨t, c, m, ct, a, p, tr, none, none, none⟩ tc))) ∧
    (∀ t c tr p a m ct : Json,
      parse_note (Json.obj [("title", t), ("color", c), ("isTrashed", tr), ("isPinned", p),
        ("isArchived", a), ("userEditedTimestampUsec", m), ("createdTimestampUsec", ct)]) =
      Except.ok none) := by
  refine ⟨fun t c tr p a m ct lc => ?_, fun t c tr p a m ct tc => ?_, fun t c tr p a m ct => ?_⟩
  · simp [parse_note, rename_fields, DEFAULT_NAMES, pyContains, pyGetItemStr, pySetItemStr,
      pyDelItemStr, setAssoc, pyIter, mkListNoteDyn, mkCommon, ctorLookup, commonNoteKeys]
  · simp [parse_note, rename_fields, DEFAULT_NAMES, pyContains, pyGetItemStr, pySetItemStr,
      pyDelItemStr, setAssoc, pyIter, mkTextNoteDyn, mkCommon, ctorLookup, commonNoteKeys]
  · simp [parse_note, rename_fields, DEFAULT_NAMES, pyContains, pyGetItemStr, pySetItemStr,
      pyDelItemStr, setAssoc, pyIter]

/-! ## Claim C6: malformed attachment specs -/

/-- A well-formed attachment spec. -/
def c6good : Json := .obj [("filePath", .str "photo.jpg")]

/-- A malformed attachment spec: no `filePath` entry. -/
def c6bad : Json := .obj [("mimetype", .str "image/jpeg")]

/-- Claim C6, as frozen, is false: the malformed spec is skipped for
the embed reference (`serialise_attachments` catches the lookup error
per attachment), but `list_attachments` has no handler, so the same
spec makes the attachment-copy enumeration raise `KeyError`, which
propagates. -/
theorem c6_counterexample :
    serialise_attachments (some "Attachments") [c6good, c6bad] = "\n![[Attachments/photo.jpg]]" ∧
    list_attachments (mkPath "notes/a.json") [c6good, c6bad] (some "Attachments") =
      Except.error PyErr.keyError :=
  ⟨rfl, rfl⟩

theorem mapExcept_append_error {α : Type} (f : Json → Except PyErr α) :
    ∀ (pre : List Json), (∀ s ∈ pre, ∃ v, f s = Except.ok v) →
      ∀ (bad : Json) (post : List Json) (e : PyErr), f bad = Except.error e →
        mapExcept f (pre ++ bad :: post) = Except.error e
  | [], _, bad, post, e, hbad => by
    rw [List.nil_append]
    simp [mapExcept, hbad]
  | s :: pre, hpre, bad, post, e, hbad => by
    obtain ⟨v, hv⟩ := hpre s (List.mem_cons_self _ _)
    have ih := mapExcept_append_error f pre (fun z hz => hpre z (List.mem_cons_of_mem _ hz))
      bad post e hbad
    rw [List.cons_append]
    simp [mapExcept, hv, ih]

/-- Claim C6 (amended): a malformed attachment spec — one whose
file-path lookup raises — is skipped for the embed reference only: the
body's embed list is exactly as if the spec were absent.  The
attachment-copy enumeration `list_attachments` performs the same lookup
with no handler, so there the first malformed spec's exception
propagates instead of being skipped. -/
theorem c6_amended_attachment_handling (d : String) (pre post : List Json) (bad : Json)
    (e : PyErr) (hbad : attachment_path_of bad = Except.error e)
    (hpre : ∀ s ∈ pre, ∃ v, attachment_path_of s = Except.ok v) :
    serialise_attachments (some d) (pre ++ bad :: post) =
      serialise_attachments (some d) (pre ++ post) ∧
    ∀ fnote, list_attachments fnote (pre ++ bad :: post) (some d) = Except.error e := by
  constructor
  · unfold serialise_attachments
    have hf : embed_line (some d) bad = none := by
      simp [embed_line, hbad]
    rw [List.filterMap_append, List.filterMap_append, List.filterMap_cons, hf]
  · intro fnote
    unfold list_attachments
    refine mapExcept_append_error _ pre ?_ bad post e ?_
    · intro s hs
      obtain ⟨v, hv⟩ := hpre s hs
      refine ⟨(pathJoin (pathParent fnote) (mkPath v), pathJoin (mkPath d) (mkPath v)), ?_⟩
      simp [copy_pair, hv]
    · simp [copy_pair, hbad]

/-- A well-formed attachment spec for the witness. -/
def w6good : Json := .obj [("filePath", .str "scan.pdf")]

/-- A malformed attachment spec for the witness (a non-mapping). -/
def w6bad : Json := .num 3

theorem c6_witness :
    serialise_attachments (some "Files") [w6good, w6bad] =
      serialise_attachments (some "Files") [w6good] ∧
    ∀ fnote, list_attachments fnote [w6good, w6bad] (some "Files") =
      Except.error PyErr.typeError := by
  have h := c6_amended_attachment_handling "Files" [w6good] [] w6bad PyErr.typeError rfl ?_
  · exact h
  · intro s hs
    have he : s = w6good := List.mem_singleton.mp hs
    rw [he]
    exact ⟨"scan.pdf", rfl⟩

end GKeep

namespace GKeep

/-! ## Claim C7: front-matter round trip -/

theorem str_append_assoc (a b c : String) : (a ++ b) ++ c = a ++ (b ++ c) := by
  obtain ⟨da⟩ := a
  obtain ⟨db⟩ := b
  obtain ⟨dc⟩ := c
  exact congrArg String.mk (List.append_assoc da db dc)

theorem renderKV_data (kv : String × MetaValue) :
    (renderKV kv).data = kv.1.data ++ ':' :: ' ' :: (pyStr kv.2).data := by
  show ((kv.1 ++ ": ") ++ pyStr kv.2).data = _
  rw [data_append, data_append, List.append_assoc]
  rfl

theorem renderKV_ne_dashes (kv : String × MetaValue) :
    (renderKV kv).data ≠ "---".data := by
  intro e
  have hcolon : ':' ∈ (renderKV kv).data := by
    rw [renderKV_data]
    exact List.mem_append.mpr (Or.inr (List.mem_cons_self _ _))
  rw [e] at hcolon
  exact absurd hcolon (by decide)

theorem splitAtSub_key_value {k v : List Char} (h : ':' ∉ k) :
    splitAtSub [':', ' '] (k ++ ':' :: ' ' :: v) = some (k, v) := by
  induction k with
  | nil =>
    show splitAtSub [':', ' '] (':' :: ' ' :: v) = some ([], v)
    have hpre : [':', ' '].isPrefixOf (':' :: ' ' :: v) = true := by
      simp [List.isPrefixOf]
    simp [splitAtSub, hpre]
  | cons c rest ih =>
    have hc : ¬ c = ':' := by
      intro e
      exact h (by rw [e]; exact List.mem_cons_self _ _)
    have ih2 := ih (fun hm => h (List.mem_cons_of_mem _ hm))
    have hbc : (':' == c) = false := by
      rw [beq_eq_false_iff_ne]
      intro e
      exact hc e.symm
    have hpre : ([':', ' '].isPrefixOf (c :: (rest ++ ':' :: ' ' :: v))) = false := by
      simp [List.isPrefixOf, hbc]
    rw [List.cons_append]
    simp [splitAtSub, hpre, ih2]

theorem mapOption_splitKVLine :
    ∀ (m : List (String × MetaValue)), (∀ kv ∈ m, ':' ∉ kv.1.data) →
      mapOption splitKVLine ((m.map renderKV).map String.data) =
        some (m.map (fun kv => (kv.1, pyStr kv.2)))
  | [], _ => rfl
  | kv :: rest, hks => by
    have h1 : splitKVLine (renderKV kv).data = some (kv.1, pyStr kv.2) := by
      unfold splitKVLine
      rw [renderKV_data, splitAtSub_key_value (hks kv (List.mem_cons_self _ _))]
      rfl
    have ih := mapOption_splitKVLine rest (fun z hz => hks z (List.mem_cons_of_mem _ hz))
    rw [List.map_map] at ih
    simp [mapOption, List.map_map, List.map_cons, h1, ih]

/-- A document whose single metadata value contains a newline. -/
def c7note : ObsidianNote :=
  ⟨⟨false, []⟩, [("k", MetaValue.str "a\nb")], [], "body", 0, 0⟩

/-- Claim C7, as frozen, is false: serializing a document whose
metadata value contains a newline and re-parsing the front-matter block
recovers nothing at all (the parse fails on the continuation line
`"b"`, which is not a `key: value` line), so in particular not the
supplied mapping — the serializer writes values unescaped. -/
theorem c7_counterexample :
    parse_front_matter_spec (obsidiannote_to_markdown c7note true).2 = none := by
  decide

/-- Claim C7 (amended): serializing a target document with metadata
enabled and re-parsing the emitted front-matter block recovers exactly
the supplied metadata entries — same keys, same order — with each value
as its plain string rendering (`str(v)`), provided the metadata is
non-empty, no key contains a colon or newline, and no rendered value
contains a newline.  Outside those provisos (newline in a value, empty
metadata) the re-parse fails, and typed values (booleans, lists) come
back only as their renderings. -/
theorem c7_amended_roundtrip (note : ObsidianNote)
    (hne : note.metadata ≠ [])
    (hks : ∀ kv ∈ note.metadata,
      (':' ∉ kv.1.data ∧ '\n' ∉ kv.1.data) ∧ '\n' ∉ (pyStr kv.2).data) :
    parse_front_matter_spec (obsidiannote_to_markdown note true).2 =
      some (note.metadata.map (fun kv => (kv.1, pyStr kv.2))) := by
  have hLnl : ∀ l ∈ (note.metadata.map renderKV).map String.data, '\n' ∉ l := by
    intro l hl
    rcases List.mem_map.mp hl with ⟨s, hs, he⟩
    rcases List.mem_map.mp hs with ⟨kv, hkv, he2⟩
    rw [← he, ← he2, renderKV_data]
    intro hm
    rcases List.mem_append.mp hm with hm | hm
    · exact (hks kv hkv).1.2 hm
    · rcases List.mem_cons.mp hm with h | hm
      · exact absurd h (by decide)
      · rcases List.mem_cons.mp hm with h | hm
        · exact absurd h (by decide)
        · exact (hks kv hkv).2 hm
  have hLne : (note.metadata.map renderKV).map String.data ≠ [] := by
    simp [hne]
  have hLdash : ∀ l ∈ (note.metadata.map renderKV).map String.data,
      (!(l == ['-', '-', '-'])) = true := by
    intro l hl
    rcases List.mem_map.mp hl with ⟨s, hs, he⟩
    rcases List.mem_map.mp hs with ⟨kv, hkv, he2⟩
    rw [← he, ← he2]
    have hb : ((renderKV kv).data == ['-', '-', '-']) = false :=
      beq_eq_false_iff_ne.mpr (renderKV_ne_dashes kv)
    rw [hb]
    rfl
  have hdash_self : (fun l => !(l == ['-', '-', '-'])) ['-', '-', '-'] = false := by
    simp
  have hdoc : ∃ tail : List Char, (obsidiannote_to_markdown note true).2.data =
      "---".data ++ '\n' :: (joinChars ['\n'] ((note.metadata.map renderKV).map String.data) ++
        '\n' :: ("---".data ++ '\n' :: tail)) := by
    by_cases htags : note.tags.isEmpty = true
    · refine ⟨'\n' :: (fix_trailing_newline note.content).data, ?_⟩
      have h3 : (obsidiannote_to_markdown note true).2 =
          "---\n" ++ (pyJoin "\n" (note.metadata.map renderKV) ++
            ("\n---\n\n" ++ fix_trailing_newline note.content)) := by
        simp [obsidiannote_to_markdown, meta_prefix, serialise_metadata, htags,
          str_append_assoc]
      rw [h3]
      rfl
    · refine ⟨'\n' :: (fix_trailing_newline note.content ++
        ("\n" ++ (serialise_tags note.tags ++ "\n"))).data, ?_⟩
      have h3 : (obsidiannote_to_markdown note true).2 =
          "---\n" ++ (pyJoin "\n" (note.metadata.map renderKV) ++
            ("\n---\n\n" ++ (fix_trailing_newline note.content ++
              ("\n" ++ (serialise_tags note.tags ++ "\n"))))) := by
        simp [obsidiannote_to_markdown, meta_prefix, serialise_metadata, htags,
          str_append_assoc]
      rw [h3]
      rfl
  obtain ⟨tail, hdata⟩ := hdoc
  have hsplit : splitOnChar '\n' (obsidiannote_to_markdown note true).2.data =
      "---".data :: (((note.metadata.map renderKV).map String.data) ++
        "---".data :: splitOnChar '\n' tail) := by
    rw [hdata]
    rw [splitOnChar_append_sep (by decide)]
    rw [splitOnChar_join_append hLne hLnl]
    rw [splitOnChar_append_sep (by decide)]
  unfold parse_front_matter_spec
  rw [hsplit]
  show parse_fm_lines _ = _
  simp only [parse_fm_lines, if_true]
  rw [dropWhile_middle _ _ _ _ hLdash hdash_self]
  rw [takeWhile_middle _ _ _ _ hLdash hdash_self]
  rw [if_neg (by simp)]
  exact mapOption_splitKVLine note.metadata (fun kv hkv => (hks kv hkv).1.1)

/-- A document with the full keep metadata shape. -/
def w7note : ObsidianNote :=
  ⟨⟨false, []⟩,
   [("x-keep-color", MetaValue.str "DEFAULT"), ("x-keep-archived", MetaValue.bool false),
    ("x-keep-pinned", MetaValue.bool true), ("x-keep-trashed", MetaValue.bool false),
    ("x-keep-labels", MetaValue.strList ["todo"])],
   ["pinned"], "milk\neggs", 0, 0⟩

theorem c7_witness :
    parse_front_matter_spec (obsidiannote_to_markdown w7note true).2 =
      some [("x-keep-color", "DEFAULT"), ("x-keep-archived", "False"),
            ("x-keep-pinned", "True"), ("x-keep-trashed", "False"),
            ("x-keep-labels", "['todo']")] := by
  have h := c7_amended_roundtrip w7note (by decide) (by decide)
  exact h

end GKeep
